import Mathlib

/-!
# Verification of the Infinite-Wiki topic-resolution pipeline

Shallow embedding of the client-side orchestration code of the
Infinite-Wiki application (`App.tsx`, `services/geminiService.ts`,
`components/SearchBar.tsx`): the string hygiene of the four
generation-service client operations, the per-cycle fetch pipeline, the
stale-cycle cancellation mechanism, the navigation history, the
random-topic picker and the pinboard.

JavaScript strings are modelled as `List Char`; the `JSON.parse` builtin
is modelled by an executable fuel-based JSON parser; the asynchronous
generation service is modelled by explicit response oracles (`Except`);
`Date.now()` and `Math.random()` are modelled as explicit inputs.
-/

namespace InfiniteWiki

/-- JavaScript strings, modelled as lists of characters. -/
abbrev Str := List Char

/-- Whitespace characters recognised by `String.prototype.trim` (the
common ASCII ones; the exotic Unicode space classes are not needed by any
payload in the repository). -/
def isWsChar (c : Char) : Bool :=
  c = ' ' || c = '\t' || c = '\n' || c = '\r' || c = '\x0b' || c = '\x0c'

/-- Model of JavaScript `String.prototype.trim`. -/
def jsTrim (s : Str) : Str :=
  ((s.dropWhile isWsChar).reverse.dropWhile isWsChar).reverse

/-- Model of JavaScript `String.prototype.toLowerCase` (ASCII). -/
def toLowerStr (s : Str) : Str := s.map Char.toLower

/-! ## A model of `JSON.parse`

The service client calls the JavaScript `JSON.parse` builtin on the raw
response text.  We model the parsed values by an inductive `Json` type and
the builtin by an executable recursive-descent parser.  (The model parses
the JSON fragment used by this application: `null`, booleans, integer
numbers, strings with the single-character escapes, arrays and objects.) -/

/-- JSON values as produced by `JSON.parse`. -/
inductive Json where
  | jnull
  | jbool (b : Bool)
  | jnum (n : Int)
  | jstr (s : Str)
  | jarr (elems : List Json)
  | jobj (fields : List (Str × Json))

/-- Single-character escape sequences of JSON string literals. -/
def escChar (c : Char) : Option Char :=
  if c = '"' then some '"'
  else if c = '\\' then some '\\'
  else if c = '/' then some '/'
  else if c = 'n' then some '\n'
  else if c = 't' then some '\t'
  else if c = 'r' then some '\r'
  else if c = 'b' then some '\x08'
  else if c = 'f' then some '\x0c'
  else none

/-- Parse the body of a JSON string literal (the opening quote already
consumed); returns the decoded content and the remaining input. -/
def parseStringBody : Str → Option (Str × Str)
  | [] => none
  | '"' :: r => some ([], r)
  | '\\' :: c :: r =>
    match escChar c with
    | some e =>
      match parseStringBody r with
      | some (s, r2) => some (e :: s, r2)
      | none => none
    | none => none
  | c :: r =>
    match parseStringBody r with
    | some (s, r2) => some (c :: s, r2)
    | none => none

/-- Numeric value of a nonempty digit run. -/
def digitsVal (ds : Str) : Nat :=
  ds.foldl (fun a c => 10 * a + (c.toNat - '0'.toNat)) 0

/-- Parse an integer JSON number (a minus sign and a digit run). -/
def parseNum (s : Str) : Option (Json × Str) :=
  match s with
  | '-' :: r =>
    let ds := r.takeWhile Char.isDigit
    if ds = [] then none
    else some (.jnum (-(digitsVal ds : Int)), r.dropWhile Char.isDigit)
  | _ =>
    let ds := s.takeWhile Char.isDigit
    if ds = [] then none
    else some (.jnum (digitsVal ds : Int), s.dropWhile Char.isDigit)

/-- Drop leading JSON whitespace. -/
def skipWs (s : Str) : Str := s.dropWhile isWsChar

/-- Parser modes: a single value, the element list of an array (after the
opening bracket, known nonempty), or the field list of an object. -/
inductive PMode where
  | value
  | elems
  | fields

/-- Fuel-based recursive-descent JSON parser.  In `elems` mode the result
is a `.jarr`, in `fields` mode a `.jobj`. -/
def parseAux : Nat → PMode → Str → Option (Json × Str)
  | 0, _, _ => none
  | fuel + 1, .value, s =>
    match s with
    | 'n' :: 'u' :: 'l' :: 'l' :: r => some (.jnull, r)
    | 't' :: 'r' :: 'u' :: 'e' :: r => some (.jbool true, r)
    | 'f' :: 'a' :: 'l' :: 's' :: 'e' :: r => some (.jbool false, r)
    | '"' :: r =>
      match parseStringBody r with
      | some (str, r2) => some (.jstr str, r2)
      | none => none
    | '[' :: r =>
      match skipWs r with
      | ']' :: r2 => some (.jarr [], r2)
      | r2 => parseAux fuel .elems r2
    | '{' :: r =>
      match skipWs r with
      | '}' :: r2 => some (.jobj [], r2)
      | r2 => parseAux fuel .fields r2
    | _ => parseNum s
  | fuel + 1, .elems, s =>
    match parseAux fuel .value (skipWs s) with
    | some (v, r) =>
      match skipWs r with
      | ',' :: r2 =>
        match parseAux fuel .elems r2 with
        | some (.jarr l, r3) => some (.jarr (v :: l), r3)
        | _ => none
      | ']' :: r2 => some (.jarr [v], r2)
      | _ => none
    | none => none
  | fuel + 1, .fields, s =>
    match skipWs s with
    | '"' :: r =>
      match parseStringBody r with
      | some (k, r2) =>
        match skipWs r2 with
        | ':' :: r3 =>
          match parseAux fuel .value (skipWs r3) with
          | some (v, r4) =>
            match skipWs r4 with
            | ',' :: r5 =>
              match parseAux fuel .fields r5 with
              | some (.jobj l, r6) => some (.jobj ((k, v) :: l), r6)
              | _ => none
            | '}' :: r5 => some (.jobj [(k, v)], r5)
            | _ => none
          | none => none
        | _ => none
      | none => none
    | _ => none

/-- Model of the `JSON.parse` builtin: parse one value, require only
whitespace to remain. -/
def jsonParse (s : Str) : Option Json :=
  match parseAux (2 * s.length + 2) .value (skipWs s) with
  | some (v, rest) => if skipWs rest = [] then some v else none
  | none => none

/-- Model of JavaScript member access `obj.field` on a parsed JSON value:
`none` is the `undefined` of a missing field (duplicate keys: last one
wins, as in `JSON.parse`). -/
def Json.getField (j : Json) (k : Str) : Option Json :=
  match j with
  | .jobj fields =>
    match fields.reverse.find? (fun p => p.1 == k) with
    | some p => some p.2
    | none => none
  | _ => none

/-- JavaScript truthiness of a parsed JSON value. -/
def Json.truthy : Json → Bool
  | .jnull => false
  | .jbool b => b
  | .jnum n => n != 0
  | .jstr s => s != []
  | .jarr _ => true
  | .jobj _ => true

/-- JavaScript truthiness of `obj.field` where a missing field is
`undefined` (falsy). -/
def optTruthy : Option Json → Bool
  | some j => j.truthy
  | none => false

/-! ## The content generation client (`services/geminiService.ts`)

Each operation takes the configuration state (`apiKey`: whether
`process.env.API_KEY` is set), its string arguments, and a response oracle
for the one network request it can make: `.error msg` is a rejected
request (transport failure), `.ok text` is `response.text`.  Each
operation returns its `Except` outcome together with the list of service
requests actually issued (a request is issued exactly when control passes
the API-key guard). -/

/-- The creativity knob; passed through to the service unmodified, so its
carrier only needs to be inert. -/
abbrev Temperature := ℚ

/-- The parsed `AmbiguityData` of `checkForAmbiguity`: the (validated)
boolean `is_ambiguous` field and the raw `meanings` field. -/
structure AmbiguityData where
  is_ambiguous : Bool
  meanings : Option Json

/-- The structured content published by a resolution cycle. -/
inductive ContentData where
  | definition (data : Json)
  | comparison (data : Json) (topicA topicB : Str)

/-- The art payload (`AsciiArtData`); with `ENABLE_ASCII_TEXT_GENERATION`
set to `false` in the source, `text` is never populated. -/
structure ArtData where
  art : Str
  text : Option Json

/-- A request issued to the generation service. -/
inductive ServiceCall where
  | ambiguityCall (topic : Str) (temp : Temperature)
  | definitionCall (topic : Str) (temp : Temperature)
  | comparisonCall (topicA topicB : Str) (temp : Temperature)
  | artCall (topic : Str)
deriving DecidableEq

/-- Placeholder for the engine-specific message of a `JSON.parse`
`SyntaxError`. -/
def jsonParseErrMsg : Str := "Unexpected token in JSON".toList

/-- The body of the `try` block of `checkForAmbiguity`
(`geminiService.ts` lines 340-361): trim, require braces, parse, require
a boolean `is_ambiguous` field. -/
def ambiguityAttempt (resp : Except Str Str) : Except Str AmbiguityData :=
  match resp with
  | .error e => .error e
  | .ok text =>
    let jsonStr := jsTrim text
    if !("\x7b".toList.isPrefixOf jsonStr && "\x7d".toList.isSuffixOf jsonStr) then
      .error "Response is not a valid JSON object".toList
    else
      match jsonParse jsonStr with
      | none => .error jsonParseErrMsg
      | some data =>
        match data.getField "is_ambiguous".toList with
        | some (.jbool b) => .ok ⟨b, data.getField "meanings".toList⟩
        | _ => .error "JSON response is missing required \"is_ambiguous\" field.".toList

/-- `checkForAmbiguity` (`geminiService.ts` lines 325-367).  The missing
API-key guard throws *outside* the `try`, so it propagates; every failure
inside the `try` is caught and converted to "not ambiguous". -/
def checkForAmbiguity (apiKey : Bool) (topic : Str) (temp : Temperature)
    (resp : Except Str Str) : Except Str AmbiguityData × List ServiceCall :=
  if !apiKey then (.error "API_KEY is not configured.".toList, [])
  else
    match ambiguityAttempt resp with
    | .ok d => (.ok d, [.ambiguityCall topic temp])
    | .error _ => (.ok ⟨false, none⟩, [.ambiguityCall topic temp])

/-- The body of the `try` block of `generateDefinition`
(`geminiService.ts` lines 398-422): trim, require braces, parse, require
truthy `summary` and `key_concepts` fields. -/
def definitionAttempt (resp : Except Str Str) : Except Str Json :=
  match resp with
  | .error e => .error e
  | .ok text =>
    let jsonStr := jsTrim text
    if !("\x7b".toList.isPrefixOf jsonStr && "\x7d".toList.isSuffixOf jsonStr) then
      .error "Response is not a valid JSON object".toList
    else
      match jsonParse jsonStr with
      | none => .error jsonParseErrMsg
      | some data =>
        if !(optTruthy (data.getField "summary".toList) &&
             optTruthy (data.getField "key_concepts".toList)) then
          .error "JSON response is missing required fields.".toList
        else .ok data

/-- The re-thrown message of `generateDefinition`:
`Could not generate content for "topic". msg`. -/
def defErrWrap (topic msg : Str) : Str :=
  "Could not generate content for \"".toList ++ topic ++ "\". ".toList ++ msg

/-- `generateDefinition` (`geminiService.ts` lines 375-430): any failure
is re-thrown wrapped in a message naming the topic. -/
def generateDefinition (apiKey : Bool) (topic : Str) (temp : Temperature)
    (resp : Except Str Str) : Except Str ContentData × List ServiceCall :=
  if !apiKey then
    (.error "API_KEY is not configured. Please check your environment variables to continue.".toList, [])
  else
    match definitionAttempt resp with
    | .ok data => (.ok (.definition data), [.definitionCall topic temp])
    | .error msg => (.error (defErrWrap topic msg), [.definitionCall topic temp])

/-- The body of the `try` block of `generateComparison`
(`geminiService.ts` lines 469-495): trim, require braces, parse, require
truthy `introduction`, `similarities`, `differences`, `conclusion`. -/
def comparisonAttempt (resp : Except Str Str) : Except Str Json :=
  match resp with
  | .error e => .error e
  | .ok text =>
    let jsonStr := jsTrim text
    if !("\x7b".toList.isPrefixOf jsonStr && "\x7d".toList.isSuffixOf jsonStr) then
      .error "Response is not a valid JSON object".toList
    else
      match jsonParse jsonStr with
      | none => .error jsonParseErrMsg
      | some data =>
        if !(optTruthy (data.getField "introduction".toList) &&
             optTruthy (data.getField "similarities".toList) &&
             optTruthy (data.getField "differences".toList) &&
             optTruthy (data.getField "conclusion".toList)) then
          .error "JSON response is missing required fields.".toList
        else .ok data

/-- The re-thrown message of `generateComparison`:
`Could not generate comparison for "topicA" vs "topicB". msg`. -/
def compErrWrap (topicA topicB msg : Str) : Str :=
  "Could not generate comparison for \"".toList ++ topicA ++ "\" vs \"".toList ++
    topicB ++ "\". ".toList ++ msg

/-- `generateComparison` (`geminiService.ts` lines 439-501). -/
def generateComparison (apiKey : Bool) (topicA topicB : Str) (temp : Temperature)
    (resp : Except Str Str) : Except Str ContentData × List ServiceCall :=
  if !apiKey then
    (.error "API_KEY is not configured. Please check your environment variables to continue.".toList, [])
  else
    match comparisonAttempt resp with
    | .ok data => (.ok (.comparison data topicA topicB), [.comparisonCall topicA topicB temp])
    | .error msg => (.error (compErrWrap topicA topicB msg), [.comparisonCall topicA topicB temp])

/-- Source flag `ENABLE_ASCII_TEXT_GENERATION` (`geminiService.ts`). -/
def ENABLE_ASCII_TEXT_GENERATION : Bool := false

/-- Model of the fence-stripping regular expression of `generateAsciiArt`
(`/^```(?:json)?\s*\n?(.*?)\n?\s*```$/s` followed by `match[1].trim()`,
applied only when `match[1]` is truthy, i.e. a nonempty group).  The
leading/trailing whitespace margins the regex can absorb are equivalently
removed by the subsequent `trim`, so the model strips the fence markers
and trims; an all-whitespace interior corresponds exactly to an empty
(falsy) capture group, in which case the string is left unchanged. -/
def fenceStrip (s : Str) : Str :=
  if "```".toList.isPrefixOf s then
    let r1 := s.drop 3
    let r2 := if "json".toList.isPrefixOf r1 then r1.drop 4 else r1
    if "```".toList.isSuffixOf r2 then
      let core := jsTrim (r2.take (r2.length - 3))
      if core = [] then s else core
    else s
  else s

/-- One attempt of the `generateAsciiArt` retry loop (`geminiService.ts`
lines 565-625): trim, strip code fences, require braces, parse, require a
string `art` field with nonempty trim. -/
def artAttempt (resp : Except Str Str) : Except Str ArtData :=
  match resp with
  | .error e => .error e
  | .ok text =>
    let jsonStr := fenceStrip (jsTrim text)
    if !("\x7b".toList.isPrefixOf jsonStr && "\x7d".toList.isSuffixOf jsonStr) then
      .error "Response is not a valid JSON object".toList
    else
      match jsonParse jsonStr with
      | none => .error jsonParseErrMsg
      | some parsedData =>
        match parsedData.getField "art".toList with
        | some (.jstr a) =>
          if jsTrim a = [] then .error "Invalid or empty ASCII art in response".toList
          else
            let result : ArtData := { art := a, text := none }
            if ENABLE_ASCII_TEXT_GENERATION && optTruthy (parsedData.getField "text".toList) then
              { result with text := parsedData.getField "text".toList } |> .ok
            else .ok result
        | _ => .error "Invalid or empty ASCII art in response".toList

/-- `generateAsciiArt` (`geminiService.ts` lines 539-630) with its
`maxRetries = 1` budget: a single attempt, whose failure is re-thrown
wrapped in the "after 1 attempts" message. -/
def generateAsciiArt (apiKey : Bool) (topic : Str)
    (resp : Except Str Str) : Except Str ArtData × List ServiceCall :=
  if !apiKey then (.error "API_KEY is not configured.".toList, [])
  else
    match artAttempt resp with
    | .ok a => (.ok a, [.artCall topic])
    | .error msg =>
      (.error ("Could not generate ASCII art after 1 attempts: ".toList ++ msg), [.artCall topic])

/-! ## The resolution cycle (`App.tsx` lines 66-135) -/

/-- `createFallbackArt` (`App.tsx` lines 42-51). -/
def createFallbackArt (topic : Str) : ArtData :=
  let displayableTopic := if topic.length > 20 then topic.take 17 ++ "...".toList else topic
  let paddedTopic := ' ' :: (displayableTopic ++ [' '])
  let topBorder := '┌' :: (List.replicate paddedTopic.length '─' ++ ['┐'])
  let middle := '│' :: (paddedTopic ++ ['│'])
  let bottomBorder := '└' :: (List.replicate paddedTopic.length '─' ++ ['┘'])
  { art := topBorder ++ '\n' :: (middle ++ '\n' :: bottomBorder), text := none }

/-- Model of `String.prototype.includes`: `pat` occurs as a contiguous
substring of `s`. -/
def strIncludes (pat : Str) : Str → Bool
  | [] => pat.isPrefixOf []
  | c :: rest => pat.isPrefixOf (c :: rest) || strIncludes pat rest

/-- `currentTopic.toLowerCase().includes(' vs. ')` (`App.tsx` line 70). -/
def isComparisonTopic (topic : Str) : Bool :=
  strIncludes " vs. ".toList (toLowerStr topic)

/-- Whether the next five characters match the split pattern `/ vs. /i`:
a space, `v` or `V`, `s` or `S`, any character, a space. -/
def isVsPat : Str → Bool
  | c0 :: c1 :: c2 :: _ :: c4 :: _ =>
    c0 == ' ' && (c1 == 'v' || c1 == 'V') && (c2 == 's' || c2 == 'S') && c4 == ' '
  | _ => false

/-- Left-to-right non-overlapping splitting at `/ vs. /i` matches, the
semantics of `String.prototype.split`; fuel-based for kernel
computability (`splitVs` supplies adequate fuel). -/
def splitVsAux : Nat → Str → Str → List Str
  | 0, s, acc => [acc.reverse ++ s]
  | _ + 1, [], acc => [acc.reverse]
  | fuel + 1, c :: rest, acc =>
    if isVsPat (c :: rest) then
      acc.reverse :: splitVsAux fuel (rest.drop 4) []
    else
      splitVsAux fuel rest (c :: acc)

/-- `currentTopic.split(/ vs. /i)` (`App.tsx` line 106). -/
def splitVs (s : Str) : List Str := splitVsAux s.length s []

/-- The destructuring `const [topicA, topicB] = currentTopic.split(...)`
followed by `.trim()` on both sides (`App.tsx` lines 106-107). -/
def comparisonSides (topic : Str) : Str × Str :=
  let parts := splitVs topic
  (jsTrim (parts.getD 0 []), jsTrim (parts.getD 1 []))

/-- `ambiguityData.meanings?.length` truthiness (`App.tsx` line 84):
property access on a raw parsed value. -/
def meaningsNonempty : Option Json → Bool
  | some (.jarr l) => !l.isEmpty
  | some (.jstr s) => !s.isEmpty
  | _ => false

/-- The environment of one resolution cycle: the configuration state plus
one response oracle per service operation the cycle might invoke. -/
structure CycleEnv where
  apiKey : Bool
  ambiguityResp : Except Str Str
  defResp : Except Str Str
  compResp : Except Str Str
  artResp : Except Str Str

/-- The visible state a completed (non-superseded) cycle publishes:
`content`, `error`, `asciiArt`, `ambiguityOptions`, `isLoading`. -/
structure CycleOutcome where
  content : Option ContentData
  error : Option Str
  asciiArt : Option ArtData
  ambiguityOptions : Option Json
  isLoading : Bool

/-- Step 2 of `fetchContent` (`App.tsx` lines 91-126): kick off the art
fetch (failure caught locally and replaced by the fallback box), run the
content fetch (`generateComparison` or `generateDefinition`), publish
content or error, finally clear the loading flag. -/
def runContentStep (topic : Str) (temp : Temperature) (env : CycleEnv)
    (isComparison : Bool) : CycleOutcome × List ServiceCall :=
  let art := generateAsciiArt env.apiKey topic env.artResp
  let artField : Option ArtData :=
    match art.1 with
    | .ok a => some a
    | .error _ => some (createFallbackArt topic)
  let c :=
    if isComparison then
      generateComparison env.apiKey (comparisonSides topic).1 (comparisonSides topic).2
        temp env.compResp
    else generateDefinition env.apiKey topic temp env.defResp
  match c.1 with
  | .ok data =>
    ({ content := some data, error := none, asciiArt := artField,
       ambiguityOptions := none, isLoading := false }, art.2 ++ c.2)
  | .error e =>
    ({ content := none, error := some e, asciiArt := artField,
       ambiguityOptions := none, isLoading := false }, art.2 ++ c.2)

/-- One complete, non-superseded run of `fetchContent` (`App.tsx` lines
72-127) for a topic: the ambiguity check (skipped for comparison topics,
early-publishing `ambiguityOptions` when ambiguous with meanings, its
thrown errors landing in the outer catch), then the content and art
fetches.  Returns the final published state and the service requests
issued, in issue order. -/
def runCycle (topic : Str) (temp : Temperature) (env : CycleEnv) :
    CycleOutcome × List ServiceCall :=
  let isComparison := isComparisonTopic topic
  if isComparison then runContentStep topic temp env isComparison
  else
    let amb := checkForAmbiguity env.apiKey topic temp env.ambiguityResp
    match amb.1 with
    | .error e =>
      ({ content := none, error := some e, asciiArt := none,
         ambiguityOptions := none, isLoading := false }, amb.2)
    | .ok d =>
      if d.is_ambiguous && meaningsNonempty d.meanings then
        ({ content := none, error := none, asciiArt := none,
           ambiguityOptions := d.meanings, isLoading := false }, amb.2)
      else
        let rest := runContentStep topic temp env isComparison
        (rest.1, amb.2 ++ rest.2)

/-! ## Stale-cycle suppression (`App.tsx` lines 66-135)

Every effect run (`fetchContent`) closes over an `isCancelled` flag; the
effect cleanup sets the flag exactly when a newer cycle starts (the
`currentTopic`/`temperature` dependency changed).  Every asynchronous
continuation checks the flag before touching visible state.  We model
this by numbering cycles: the state records the currently active cycle
token, a continuation of cycle `tok` is cancelled iff `tok` differs from
the active token, and each publish point is guarded accordingly. -/

/-- The application state visible to the UI, plus the token of the cycle
whose `isCancelled` flag is still false. -/
structure MachState where
  activeCycle : Nat
  content : Option ContentData
  error : Option Str
  asciiArt : Option ArtData
  ambiguityOptions : Option Json
  isLoading : Bool

/-- The scheduler-visible events of the pipeline: a cycle starting (the
effect body running and superseding all older cycles), and the three
kinds of asynchronous results arriving for a cycle. -/
inductive CycleEvent where
  | cycleStart (tok : Nat)
  | ambiguityArrived (tok : Nat) (d : AmbiguityData)
  | artArrived (tok : Nat) (topic : Str) (r : Except Str ArtData)
  | contentArrived (tok : Nat) (r : Except Str ContentData)

/-- One scheduler step.  `cycleStart` performs lines 74-78 (reset state,
set loading) and makes its cycle the active one; each arrival applies its
continuation (lines 84-88, 94-102, 112-126) only if its cycle's
`isCancelled` flag is still false, i.e. its token is still active. -/
def machStep (s : MachState) : CycleEvent → MachState
  | .cycleStart tok =>
    { activeCycle := tok, content := none, error := none, asciiArt := none,
      ambiguityOptions := none, isLoading := true }
  | .ambiguityArrived tok d =>
    if tok = s.activeCycle ∧ d.is_ambiguous ∧ meaningsNonempty d.meanings then
      { s with ambiguityOptions := d.meanings, isLoading := false }
    else s
  | .artArrived tok topic r =>
    if tok = s.activeCycle then
      match r with
      | .ok a => { s with asciiArt := some a }
      | .error _ => { s with asciiArt := some (createFallbackArt topic) }
    else s
  | .contentArrived tok r =>
    if tok = s.activeCycle then
      match r with
      | .ok data => { s with content := some data, isLoading := false }
      | .error e => { s with error := some e, content := none, isLoading := false }
    else s

/-- A result event (not a cycle start) belonging to a superseded cycle:
its closure's `isCancelled` flag is set. -/
def staleResultEvent (active : Nat) : CycleEvent → Bool
  | .cycleStart _ => false
  | .ambiguityArrived tok _ => tok != active
  | .artArrived tok _ _ => tok != active
  | .contentArrived tok _ => tok != active

/-! ## Navigation history and random picker (`App.tsx` lines 20-34,
54-64, 137-166)

The history lives in ordinary Lean `String`s (`String.trim` and
`String.toLower` modelling the JavaScript methods). -/

/-- `PREDEFINED_WORDS` (`App.tsx` lines 20-33). -/
def PREDEFINED_WORDS : List String := [
  "Balance", "Harmony", "Discord", "Unity", "Fragmentation", "Clarity", "Ambiguity",
  "Presence", "Absence", "Creation", "Destruction", "Light", "Shadow", "Beginning",
  "Ending", "Rising", "Falling", "Connection", "Isolation", "Hope", "Despair",
  "Order and chaos", "Light and shadow", "Sound and silence", "Form and formlessness",
  "Being and nonbeing", "Presence and absence", "Motion and stillness",
  "Unity and multiplicity", "Finite and infinite", "Sacred and profane",
  "Memory and forgetting", "Question and answer", "Search and discovery",
  "Journey and destination", "Dream and reality", "Time and eternity",
  "Self and other", "Known and unknown", "Spoken and unspoken", "Visible and invisible",
  "Zigzag", "Waves", "Spiral", "Bounce", "Slant", "Drip", "Stretch", "Squeeze",
  "Float", "Fall", "Spin", "Melt", "Rise", "Twist", "Explode", "Stack", "Mirror",
  "Echo", "Vibrate",
  "Gravity", "Friction", "Momentum", "Inertia", "Turbulence", "Pressure", "Tension",
  "Oscillate", "Fractal", "Quantum", "Entropy", "Vortex", "Resonance", "Equilibrium",
  "Centrifuge", "Elastic", "Viscous", "Refract", "Diffuse", "Cascade", "Levitate",
  "Magnetize", "Polarize", "Accelerate", "Compress", "Undulate",
  "Liminal", "Ephemeral", "Paradox", "Zeitgeist", "Metamorphosis", "Synesthesia",
  "Recursion", "Emergence", "Dialectic", "Apophenia", "Limbo", "Flux", "Sublime",
  "Uncanny", "Palimpsest", "Chimera", "Void", "Transcend", "Ineffable", "Qualia",
  "Gestalt", "Simulacra", "Abyssal",
  "Existential", "Nihilism", "Solipsism", "Phenomenology", "Hermeneutics",
  "Deconstruction", "Postmodern", "Absurdism", "Catharsis", "Epiphany", "Melancholy",
  "Nostalgia", "Longing", "Reverie", "Pathos", "Ethos", "Logos", "Mythos",
  "Anamnesis", "Intertextuality", "Metafiction", "Stream", "Lacuna", "Caesura",
  "Enjambment"]

/-- `new Set(...)` deduplication keeping first occurrences, in insertion
order. -/
def jsSetDedupAux : List String → List String → List String
  | [], _ => []
  | x :: xs, seen =>
    if x ∈ seen then jsSetDedupAux xs seen else x :: jsSetDedupAux xs (x :: seen)

/-- `UNIQUE_WORDS = [...new Set(PREDEFINED_WORDS)]` (`App.tsx` line 34). -/
def UNIQUE_WORDS : List String := jsSetDedupAux PREDEFINED_WORDS []

/-- `String.prototype.toLowerCase` on Lean strings (character-wise, as
for the ASCII topics of this application). -/
def lowerStr (s : String) : String := ⟨s.data.map Char.toLower⟩

/-- `String.prototype.trim` on Lean strings. -/
def trimStr (s : String) : String := ⟨jsTrim s.data⟩

/-- `currentTopic = history[history.length - 1]` (`App.tsx` line 64); on
an empty history the JavaScript value is `undefined`, modelled as `""`
(our theorems only use nonempty histories, where the model is exact). -/
def currentTopicOf (h : List String) : String := h.getD (h.length - 1) ""

/-- `handleTopicChange` (`App.tsx` lines 137-143): trim, append only a
nonempty topic differing case-insensitively from the current one. -/
def handleTopicChange (h : List String) (topic : String) : List String :=
  let newTopic := trimStr topic
  if newTopic != "" && lowerStr newTopic != lowerStr (currentTopicOf h) then
    h ++ [newTopic]
  else h

/-- `handleRandom` (`App.tsx` lines 145-160): draw an index, substitute
the next index (mod length) if the drawn word equals the current topic
case-insensitively, and replace the whole history.  `Math.floor
(Math.random() * UNIQUE_WORDS.length)` is modelled by the explicit
`randomIndex` input. -/
def handleRandom (currentTopic : String) (randomIndex : Nat) : List String :=
  let randomWord := UNIQUE_WORDS.getD randomIndex ""
  let randomWord :=
    if lowerStr randomWord = lowerStr currentTopic then
      UNIQUE_WORDS.getD ((randomIndex + 1) % UNIQUE_WORDS.length) ""
    else randomWord
  [randomWord]

/-- `arr.slice(0, e)` with the JavaScript negative-index convention. -/
def jsSliceTo (h : List String) (e : Int) : List String :=
  h.take (if e < 0 then ((h.length : Int) + e).toNat else e.toNat)

/-- `handleBreadcrumbClick` (`App.tsx` lines 162-166). -/
def handleBreadcrumbClick (h : List String) (index : Int) : List String :=
  if index < (h.length : Int) - 1 then jsSliceTo h (index + 1) else h

/-- The history-mutating user operations of the application. -/
inductive HistOp where
  | append (topic : String)
  | truncate (index : Int)
  | reset (randomIndex : Nat)

/-- Apply one user operation to the history. -/
def applyHistOp (h : List String) : HistOp → List String
  | .append topic => handleTopicChange h topic
  | .truncate index => handleBreadcrumbClick h index
  | .reset randomIndex => handleRandom (currentTopicOf h) randomIndex

/-- Apply a sequence of user operations. -/
def applyHistOps (h : List String) (ops : List HistOp) : List String :=
  ops.foldl applyHistOp h

/-- The seeded initial history (`App.tsx` line 54). -/
def initialHistory : List String := ["Hypertext"]

/-! ## Pinboard (`App.tsx` lines 168-175, `types.ts`) -/

/-- The `type` tag of a pinned item. -/
inductive PinKind where
  | concept
  | ascii
deriving DecidableEq

/-- A pinned item (`types.ts`): generated identifier, type tag, opaque
content payload, canvas position. -/
structure PinnedItem where
  id : String
  kind : PinKind
  content : String
  x : Int
  y : Int
deriving DecidableEq

/-- `Omit<PinnedItem, 'id'>`: what the caller of `addPinnedItem`
supplies. -/
structure PinSpec where
  kind : PinKind
  content : String
  x : Int
  y : Int
deriving DecidableEq

/-- Kernel-computable decimal digits of a positive number (most
significant first); models the template interpolation of a JavaScript
number. -/
def natDigitsAux : Nat → Nat → List Char
  | 0, _ => []
  | fuel + 1, n => if n = 0 then [] else natDigitsAux fuel (n / 10) ++ [Char.ofNat (48 + n % 10)]

/-- Decimal notation of a natural number. -/
def natRepr (n : Nat) : String := if n = 0 then "0" else ⟨natDigitsAux (n + 1) n⟩

/-- `addPinnedItem` (`App.tsx` lines 168-171): appends the item with id
`item-${Date.now()}`; the clock reading is the explicit `now` input. -/
def addPinnedItem (now : Nat) (item : PinSpec) (prev : List PinnedItem) : List PinnedItem :=
  prev ++ [{ id := "item-" ++ natRepr now, kind := item.kind, content := item.content,
             x := item.x, y := item.y }]

/-- `updatePinnedItemPosition` (`App.tsx` lines 173-175). -/
def updatePinnedItemPosition (id : String) (x y : Int)
    (prev : List PinnedItem) : List PinnedItem :=
  prev.map (fun item => if item.id == id then { item with x := x, y := y } else item)

/-- A sequence of `addPinnedItem` calls from the empty board, each with
its clock reading. -/
def pinboardAdds (adds : List (Nat × PinSpec)) : List PinnedItem :=
  adds.foldl (fun acc a => addPinnedItem a.1 a.2 acc) []

/-! ## Auxiliary notions used by the claims -/

/-- A well-formed markdown fencing of a payload, as in the claim about
response hygiene: the payload surrounded by an opening and a closing code
fence. -/
def fenceWrap (inner : Str) : Str :=
  "```json\n".toList ++ (inner ++ "\n```".toList)

/-- The composite-topic encoding performed by `SearchBar.handleSubmit`
(`components/SearchBar` line 25): the two trimmed inputs joined by
the separator. -/
def encodeComparison (q q2 : Str) : Str :=
  jsTrim q ++ " vs. ".toList ++ jsTrim q2

/-- Splitting a string into its newline-separated lines (how the
rendered art's "number of lines" is counted). -/
def splitLines : Str → List Str
  | [] => [[]]
  | c :: rest =>
    if c = '\n' then [] :: splitLines rest
    else
      match splitLines rest with
      | [] => [[c]]
      | p :: ps => (c :: p) :: ps

/-- Whether the split pattern `/ vs. /i` matches anywhere in the
string. -/
def hasVsPat : Str → Bool
  | [] => false
  | c :: rest => isVsPat (c :: rest) || hasVsPat rest

/-- Whether the string ends in a space, `v`/`V`, `s`/`S` and one further
character — the only way a `/ vs. /i` match can straddle the end of the
left side of a composite and the separator's leading space. -/
def vsBoundaryRisk (s : Str) : Bool :=
  match s.reverse with
  | _ :: s2 :: v2 :: sp :: _ =>
    sp == ' ' && (v2 == 'v' || v2 == 'V') && (s2 == 's' || s2 == 'S')
  | _ => false

/-- History operations whose truncation indices are the nonnegative ones
actually produced by the breadcrumb UI. -/
def histOpNonneg : HistOp → Bool
  | .truncate index => decide (0 ≤ index)
  | _ => true

/-! ## C1: stale-cycle suppression -/

/-- C1: stale-cycle suppression.  Every result (ambiguity, art or
content) belonging to a superseded cycle — one whose token is no longer
the active one, i.e. whose `isCancelled` flag has been set — is discarded
on arrival: processing any sequence of such stale results leaves the
visible state (content, error, art, ambiguity options, loading flag)
completely unchanged, so only the most recent cycle's results can ever be
published. -/
theorem claim1_stale_results_discarded (s : MachState) (events : List CycleEvent)
    (hstale : ∀ e ∈ events, staleResultEvent s.activeCycle e = true) :
    events.foldl machStep s = s := by
  induction events with
  | nil => rfl
  | cons e es ih =>
    have he : staleResultEvent s.activeCycle e = true := hstale e (by simp)
    have hs : machStep s e = s := by
      cases e with
      | cycleStart tok => simp [staleResultEvent] at he
      | ambiguityArrived tok d =>
        have hne : tok ≠ s.activeCycle := by simpa [staleResultEvent] using he
        simp [machStep, hne]
      | artArrived tok topic r =>
        have hne : tok ≠ s.activeCycle := by simpa [staleResultEvent] using he
        simp [machStep, hne]
      | contentArrived tok r =>
        have hne : tok ≠ s.activeCycle := by simpa [staleResultEvent] using he
        simp [machStep, hne]
    rw [List.foldl_cons, hs]
    exact ih (fun e' he' => hstale e' (List.mem_cons_of_mem _ he'))

/-- Witness for C1: a state in cycle 2 with the stale results of cycles 0
and 1 still in flight; their arrival changes nothing. -/
theorem claim1_witness :
    (∀ e ∈ [CycleEvent.contentArrived 1 (.error "late".toList),
            CycleEvent.ambiguityArrived 0 ⟨true, some (.jarr [.jnull])⟩,
            CycleEvent.artArrived 1 "Gravity".toList (.error "boom".toList)],
        staleResultEvent (MachState.mk 2 none none none none true).activeCycle e = true) ∧
    List.foldl machStep (MachState.mk 2 none none none none true)
        [CycleEvent.contentArrived 1 (.error "late".toList),
         CycleEvent.ambiguityArrived 0 ⟨true, some (.jarr [.jnull])⟩,
         CycleEvent.artArrived 1 "Gravity".toList (.error "boom".toList)]
      = MachState.mk 2 none none none none true :=
  ⟨by decide, claim1_stale_results_discarded _ _ (by decide)⟩

/-! ## C8: history non-emptiness invariant -/

/-- One safe operation preserves non-emptiness of the history. -/
theorem applyHistOp_ne_nil (h : List String) (op : HistOp) (hne : h ≠ [])
    (hop : histOpNonneg op = true) : applyHistOp h op ≠ [] := by
  cases op with
  | append t =>
    simp only [applyHistOp, handleTopicChange]
    split
    · simp
    · exact hne
  | truncate idx =>
    have hidx : 0 ≤ idx := by simpa [histOpNonneg] using hop
    simp only [applyHistOp, handleBreadcrumbClick]
    split
    · simp only [jsSliceTo]
      rw [if_neg (by omega)]
      cases h with
      | nil => exact absurd rfl hne
      | cons a t =>
        have h1 : (idx + 1).toNat = idx.toNat + 1 := by omega
        rw [h1]
        simp
    · exact hne
  | reset i =>
    simp [applyHistOp, handleRandom]

/-- Safe operation sequences preserve non-emptiness of the history. -/
theorem applyHistOps_ne_nil : ∀ (ops : List HistOp) (h : List String), h ≠ [] →
    (∀ op ∈ ops, histOpNonneg op = true) → applyHistOps h ops ≠ [] := by
  intro ops
  induction ops with
  | nil => intro h hne _; exact hne
  | cons op ops ih =>
    intro h hne hops
    have h1 : applyHistOps h (op :: ops) = applyHistOps (applyHistOp h op) ops := rfl
    rw [h1]
    exact ih _ (applyHistOp_ne_nil h op hne (hops op (by simp)))
      (fun o ho => hops o (List.mem_cons_of_mem _ ho))

/-- `history[history.length - 1]` is the last element of a nonempty
history. -/
theorem currentTopic_getLast (l : List String) (hne : l ≠ []) :
    l.getLast? = some (currentTopicOf l) := by
  have hlt : l.length - 1 < l.length := by
    have : 0 < l.length := List.length_pos.mpr hne
    omega
  rw [List.getLast?_eq_getElem?, List.getElem?_eq_getElem hlt]
  simp [currentTopicOf, List.getD_eq_getElem?_getD, List.getElem?_eq_getElem hlt]

/-- C8 (amended): starting from the seeded single-entry history, every
sequence of appends, truncations *with nonnegative indices* and resets
leaves the history non-empty, with the current topic its last element.
(The restriction to nonnegative truncation indices is forced:
`handleBreadcrumbClick(-1)` empties a two-entry history, see the
counterexample.) -/
theorem claim8_history_invariant_amended (ops : List HistOp)
    (hops : ∀ op ∈ ops, histOpNonneg op = true) :
    applyHistOps initialHistory ops ≠ [] ∧
    (applyHistOps initialHistory ops).getLast?
      = some (currentTopicOf (applyHistOps initialHistory ops)) := by
  have hne := applyHistOps_ne_nil ops initialHistory (by simp [initialHistory]) hops
  exact ⟨hne, currentTopic_getLast _ hne⟩

/-- Counterexample for C8 as stated: with arbitrary *integer* indices
allowed, truncating at index `-1` (JavaScript `slice(0, 0)`) empties the
history, violating the non-emptiness invariant. -/
theorem claim8_counterexample :
    applyHistOps initialHistory [.append "Quantum", .truncate (-1)] = [] := by decide

/-- Witness for C8: a run of all three safe operations keeps the
invariant. -/
theorem claim8_witness :
    (∀ op ∈ [HistOp.append " Entropy ", HistOp.truncate 0, HistOp.reset 2],
        histOpNonneg op = true) ∧
    (applyHistOps initialHistory [HistOp.append " Entropy ", HistOp.truncate 0, HistOp.reset 2] ≠ [] ∧
     (applyHistOps initialHistory [HistOp.append " Entropy ", HistOp.truncate 0, HistOp.reset 2]).getLast?
       = some (currentTopicOf (applyHistOps initialHistory
           [HistOp.append " Entropy ", HistOp.truncate 0, HistOp.reset 2]))) :=
  ⟨by decide, claim8_history_invariant_amended _ (by decide)⟩

/-! ## C9: append semantics -/

/-- C9 (amended): appending a trimmed *nonempty* topic that differs
case-insensitively from the current one appends it as the new last
element; appending a topic case-insensitively equal to the current one is
a no-op.  (The restriction to nonempty topics is forced: the empty string
differs case-insensitively from any current topic but is never appended,
see the counterexample.) -/
theorem claim9_append_semantics_amended :
    (∀ (h : List String) (t : String), h ≠ [] → trimStr t = t → t ≠ "" →
        lowerStr t ≠ lowerStr (currentTopicOf h) → handleTopicChange h t = h ++ [t]) ∧
    (∀ (h : List String) (t : String), h ≠ [] →
        lowerStr (trimStr t) = lowerStr (currentTopicOf h) → handleTopicChange h t = h) := by
  constructor
  · intro h t _ htrim htne hdiff
    simp only [handleTopicChange, htrim]
    rw [if_pos]
    simp [htne, hdiff]
  · intro h t _ hsame
    simp only [handleTopicChange]
    rw [if_neg]
    simp [hsame]

/-- Counterexample for C9 as stated: the empty topic is trimmed and
differs case-insensitively from the current topic `"Hypertext"`, yet the
history is left unchanged instead of gaining it as a new last element. -/
theorem claim9_counterexample :
    trimStr "" = "" ∧ lowerStr "" ≠ lowerStr "Hypertext" ∧
    handleTopicChange ["Hypertext"] "" = ["Hypertext"] ∧
    handleTopicChange ["Hypertext"] "" ≠ ["Hypertext", ""] := by decide

/-- Witness for C9: appending `"Entropy"` over current topic
`"Hypertext"` appends; appending `"hypertext"` is a no-op. -/
theorem claim9_witness :
    handleTopicChange ["Hypertext"] "Entropy" = ["Hypertext", "Entropy"] ∧
    handleTopicChange ["Hypertext"] "hypertext" = ["Hypertext"] :=
  ⟨claim9_append_semantics_amended.1 ["Hypertext"] "Entropy" (by decide) (by decide)
      (by decide) (by decide),
   claim9_append_semantics_amended.2 ["Hypertext"] "hypertext" (by decide) (by decide)⟩

/-! ## C10: pinned-item identifier freshness -/

/-- Appending one decimal digit multiplies the accumulated value by ten. -/
theorem digitsVal_append_digit (ds : Str) (c : Char) :
    digitsVal (ds ++ [c]) = 10 * digitsVal ds + (c.toNat - '0'.toNat) := by
  simp [digitsVal, List.foldl_append]

/-- The character of a decimal digit decodes back to it. -/
theorem charOfNat_digit_val (d : Nat) (hd : d < 10) :
    (Char.ofNat (48 + d)).toNat - '0'.toNat = d := by
  interval_cases d <;> decide

/-- `natDigitsAux` produces the decimal digits of its argument. -/
theorem natDigitsAux_val : ∀ fuel n, n ≤ fuel → digitsVal (natDigitsAux fuel n) = n := by
  intro fuel
  induction fuel with
  | zero =>
    intro n hn
    have h0 : n = 0 := by omega
    subst h0
    rfl
  | succ fuel ih =>
    intro n hn
    by_cases h0 : n = 0
    · subst h0; simp [natDigitsAux, digitsVal]
    · simp only [natDigitsAux, if_neg h0]
      rw [digitsVal_append_digit, ih (n / 10) (by omega),
        charOfNat_digit_val _ (Nat.mod_lt _ (by norm_num))]
      omega

/-- Decoding a decimal notation recovers the number. -/
theorem digitsVal_natRepr (n : Nat) : digitsVal (natRepr n).data = n := by
  by_cases h0 : n = 0
  · subst h0; decide
  · simp only [natRepr, if_neg h0]
    exact natDigitsAux_val (n + 1) n (by omega)

/-- Decimal notation is injective. -/
theorem natRepr_inj : Function.Injective natRepr := by
  intro m n h
  have := congrArg (fun s : String => digitsVal s.data) h
  simpa [digitsVal_natRepr] using this

/-- The id generator `item-${t}` is injective in the clock reading. -/
theorem pinId_inj : Function.Injective (fun t : Nat => "item-" ++ natRepr t) := by
  intro a b h
  apply natRepr_inj
  have hdata : ("item-" ++ natRepr a).data = ("item-" ++ natRepr b).data :=
    congrArg String.data h
  rw [String.data_append, String.data_append] at hdata
  have := List.append_cancel_left hdata
  cases ha : natRepr a
  cases hb : natRepr b
  simp_all

/-- The ids of a board built by successive adds, in order. -/
theorem pinboardAdds_map_id :
    ∀ (adds : List (Nat × PinSpec)) (acc : List PinnedItem),
      (adds.foldl (fun acc a => addPinnedItem a.1 a.2 acc) acc).map PinnedItem.id
        = acc.map PinnedItem.id ++ adds.map (fun a => "item-" ++ natRepr a.1) := by
  intro adds
  induction adds with
  | nil => intro acc; simp
  | cons a as ih =>
    intro acc
    rw [List.foldl_cons, ih]
    simp [addPinnedItem]

/-- A list whose image under `f` has no duplicates has at most one
element with any given `f`-value. -/
theorem filter_length_le_one {α β : Type} [DecidableEq β] (f : α → β) :
    ∀ (l : List α), (l.map f).Nodup → ∀ b : β,
      (l.filter (fun x => f x == b)).length ≤ 1 := by
  intro l
  induction l with
  | nil => intro _ b; simp
  | cons x xs ih =>
    intro h b
    simp only [List.map_cons, List.nodup_cons] at h
    by_cases hb : f x = b
    · subst hb
      rw [List.filter_cons, if_pos (by simp)]
      have hnil : xs.filter (fun y => f y == f x) = [] := by
        rw [List.filter_eq_nil_iff]
        intro a ha
        simp only [beq_iff_eq]
        intro heq
        exact h.1 (heq ▸ List.mem_map_of_mem f ha)
      rw [hnil]
      simp
    · rw [List.filter_cons, if_neg (by simp [hb])]
      exact ih h.2 b

/-- C10 (amended): when the clock readings of the adds are pairwise
distinct — `Date.now()` not returning the same millisecond twice — every
added item receives an identifier distinct from all previously added
items, and a move by id can affect at most one item.  (The restriction is
forced: two adds in the same millisecond receive the same id, see the
counterexample.) -/
theorem claim10_pin_ids_amended (adds : List (Nat × PinSpec))
    (hts : (adds.map Prod.fst).Nodup) :
    ((pinboardAdds adds).map PinnedItem.id).Nodup ∧
    ∀ idq : String, ((pinboardAdds adds).filter (fun it => it.id == idq)).length ≤ 1 := by
  have hids : (pinboardAdds adds).map PinnedItem.id
      = (adds.map Prod.fst).map (fun t => "item-" ++ natRepr t) := by
    rw [pinboardAdds, pinboardAdds_map_id]
    simp [List.map_map, Function.comp]
  have hnody : ((pinboardAdds adds).map PinnedItem.id).Nodup := by
    rw [hids]
    exact hts.map pinId_inj
  refine ⟨hnody, ?_⟩
  intro idq
  exact filter_length_le_one PinnedItem.id (pinboardAdds adds) hnody idq

/-- Counterexample for C10 as stated: two adds with the same `Date.now()`
reading (the same millisecond) produce two distinct pinned items with the
*same* identifier `item-5`, and a move by that id updates both items. -/
theorem claim10_counterexample :
    ¬ ((pinboardAdds [(5, ⟨.concept, "c0", 0, 0⟩), (5, ⟨.ascii, "c1", 1, 1⟩)]).map
        PinnedItem.id).Nodup ∧
    updatePinnedItemPosition "item-5" 9 9
        (pinboardAdds [(5, ⟨.concept, "c0", 0, 0⟩), (5, ⟨.ascii, "c1", 1, 1⟩)])
      = [⟨"item-5", .concept, "c0", 9, 9⟩, ⟨"item-5", .ascii, "c1", 9, 9⟩] := by decide

/-! ## C3: malformed composite topics -/

/-- With a configured key, `generateAsciiArt` issues exactly one art
request. -/
theorem generateAsciiArt_calls (topic : Str) (resp : Except Str Str) :
    (generateAsciiArt true topic resp).2 = [.artCall topic] := by
  rcases h : artAttempt resp with a | e <;> simp [generateAsciiArt, h]

/-- With a configured key, `generateComparison` issues exactly one
comparison request. -/
theorem generateComparison_calls (a b : Str) (temp : Temperature)
    (resp : Except Str Str) :
    (generateComparison true a b temp resp).2 = [.comparisonCall a b temp] := by
  rcases h : comparisonAttempt resp with d | e <;> simp [generateComparison, h]

/-- With a configured key, `generateDefinition` issues exactly one
definition request. -/
theorem generateDefinition_calls (topic : Str) (temp : Temperature)
    (resp : Except Str Str) :
    (generateDefinition true topic temp resp).2 = [.definitionCall topic temp] := by
  rcases h : definitionAttempt resp with d | e <;> simp [generateDefinition, h]

/-- The requests issued by the content-and-art step of a comparison
cycle. -/
theorem runContentStep_comparison_calls (topic : Str) (temp : Temperature)
    (env : CycleEnv) (hkey : env.apiKey = true) :
    (runContentStep topic temp env true).2
      = [.artCall topic,
         .comparisonCall (comparisonSides topic).1 (comparisonSides topic).2 temp] := by
  simp only [runContentStep, hkey, if_pos]
  rcases hc : (generateComparison true (comparisonSides topic).1 (comparisonSides topic).2
      temp env.compResp).1 with d | e <;>
    simp [hc, generateAsciiArt_calls, generateComparison_calls]

/-- C3 (amended): for every topic the pipeline treats as a comparison —
including malformed composites with one side empty after trimming — no
validation error is reported at parse time; with a configured key the
cycle issues exactly the art request and then the `generateComparison`
request, called with the two trimmed split parts (an empty string for a
missing side). -/
theorem claim3_no_parse_validation (topic : Str) (temp : Temperature) (env : CycleEnv)
    (hcomp : isComparisonTopic topic = true) (hkey : env.apiKey = true) :
    (runCycle topic temp env).2
      = [.artCall topic,
         .comparisonCall (comparisonSides topic).1 (comparisonSides topic).2 temp] := by
  simp only [runCycle, hcomp, if_pos]
  exact runContentStep_comparison_calls topic temp env hkey

/-- Counterexample for C3 as stated: for the malformed composite
`"Gravity vs. "` the pipeline reports no validation error and *does*
invoke `generateComparison`, with the empty string as the missing side;
with a well-formed service response the cycle even settles with content
and no error. -/
theorem claim3_counterexample :
    (runCycle "Gravity vs. ".toList 1
        (CycleEnv.mk true (.ok "ignored".toList) (.ok "ignored".toList)
          (.ok "\x7b\"introduction\": \"i\", \"similarities\": [], \"differences\": [], \"conclusion\": \"c\"\x7d".toList)
          (.ok "\x7b\"art\": \"<>\"\x7d".toList))).2
      = [.artCall "Gravity vs. ".toList,
         .comparisonCall "Gravity".toList [] 1] ∧
    (runCycle "Gravity vs. ".toList 1
        (CycleEnv.mk true (.ok "ignored".toList) (.ok "ignored".toList)
          (.ok "\x7b\"introduction\": \"i\", \"similarities\": [], \"differences\": [], \"conclusion\": \"c\"\x7d".toList)
          (.ok "\x7b\"art\": \"<>\"\x7d".toList))).1.error = none := by
  constructor
  · decide
  · rfl

/-- Witness for C3: the same malformed composite under the amended
statement. -/
theorem claim3_witness :
    (isComparisonTopic "Gravity vs. ".toList = true ∧
      (CycleEnv.mk true (.error "e".toList) (.error "e".toList) (.error "e".toList)
        (.error "e".toList)).apiKey = true) ∧
    (runCycle "Gravity vs. ".toList 1
        (CycleEnv.mk true (.error "e".toList) (.error "e".toList) (.error "e".toList)
          (.error "e".toList))).2
      = [.artCall "Gravity vs. ".toList,
         .comparisonCall (comparisonSides "Gravity vs. ".toList).1
           (comparisonSides "Gravity vs. ".toList).2 1] :=
  ⟨⟨by decide, rfl⟩,
   claim3_no_parse_validation "Gravity vs. ".toList 1 _ (by decide) rfl⟩

/-! ## C5: comparison-topic round-trip -/

/-- `dropWhile` is the identity when the head fails the predicate. -/
theorem dropWhile_eq_self_of_head {p : Char → Bool} {s : Str} {a : Char}
    (ha : s.head? = some a) (hpa : p a = false) : s.dropWhile p = s := by
  cases s with
  | nil => simp at ha
  | cons c t =>
    have hc : c = a := by simpa using ha
    subst hc
    rw [List.dropWhile_cons, if_neg (by simp [hpa])]

/-- `trim` is the identity on strings whose two ends are not
whitespace. -/
theorem jsTrim_eq_self {s : Str} {a b : Char} (ha : s.head? = some a)
    (hwa : isWsChar a = false) (hb : s.getLast? = some b)
    (hwb : isWsChar b = false) : jsTrim s = s := by
  unfold jsTrim
  rw [dropWhile_eq_self_of_head ha hwa]
  have hrev : s.reverse.head? = some b := by rw [List.head?_reverse]; exact hb
  rw [dropWhile_eq_self_of_head hrev hwb, List.reverse_reverse]

/-- A scan that never hits the split pattern accumulates the whole
string into a single part. -/
theorem splitVsAux_no_pat : ∀ (fuel : Nat) (s acc : Str), s.length ≤ fuel →
    hasVsPat s = false → splitVsAux fuel s acc = [acc.reverse ++ s] := by
  intro fuel
  induction fuel with
  | zero => intro s acc _ _; rfl
  | succ fuel ih =>
    intro s acc hlen hpat
    cases s with
    | nil => simp [splitVsAux]
    | cons c rest =>
      have hsplit : isVsPat (c :: rest) = false ∧ hasVsPat rest = false := by
        have := hpat
        simp only [hasVsPat, Bool.or_eq_false_iff] at this
        exact this
      rw [show splitVsAux (fuel + 1) (c :: rest) acc
          = if isVsPat (c :: rest) then acc.reverse :: splitVsAux fuel (rest.drop 4) []
            else splitVsAux fuel rest (c :: acc) from rfl]
      rw [if_neg (by rw [hsplit.1]; simp)]
      rw [ih rest (c :: acc) (by simpa using Nat.le_of_succ_le_succ hlen) hsplit.2]
      simp

/-- Dropping the head preserves absence of the boundary-straddle
shape. -/
theorem vsBoundaryRisk_tail (c : Char) (A : Str)
    (h : vsBoundaryRisk (c :: A) = false) : vsBoundaryRisk A = false := by
  rcases h4 : A.reverse with _ | ⟨x1, t1⟩
  · unfold vsBoundaryRisk
    rw [h4]
  · rcases h3 : t1 with _ | ⟨x2, t2⟩
    · unfold vsBoundaryRisk
      rw [h4, h3]
    · rcases h2 : t2 with _ | ⟨x3, t3⟩
      · unfold vsBoundaryRisk
        rw [h4, h3, h2]
      · rcases h1 : t3 with _ | ⟨x4, t4⟩
        · unfold vsBoundaryRisk
          rw [h4, h3, h2, h1]
        · have hcrev : (c :: A).reverse = x1 :: x2 :: x3 :: x4 :: (t4 ++ [c]) := by
            rw [List.reverse_cons, h4, h3, h2, h1]
            simp
          unfold vsBoundaryRisk at h ⊢
          rw [hcrev] at h
          rw [h4, h3, h2, h1]
          exact h

/-- The scan of `left ++ " vs. " ++ right` splits exactly at the
separator when neither side contains a pattern match and the left side
cannot straddle one into the separator. -/
theorem splitVsAux_sep : ∀ (A : Str) (B acc : Str) (fuel : Nat),
    A.length + 5 + B.length ≤ fuel →
    hasVsPat A = false → vsBoundaryRisk A = false → hasVsPat B = false →
    splitVsAux fuel (A ++ " vs. ".toList ++ B) acc = [acc.reverse ++ A, B] := by
  intro A
  induction A with
  | nil =>
    intro B acc fuel hlen _ _ hB
    cases fuel with
    | zero => omega
    | succ fuel =>
      rw [show ([] : Str) ++ " vs. ".toList ++ B = ' ' :: 'v' :: 's' :: '.' :: ' ' :: B
          from by simp]
      rw [show splitVsAux (fuel + 1) (' ' :: 'v' :: 's' :: '.' :: ' ' :: B) acc
          = if isVsPat (' ' :: 'v' :: 's' :: '.' :: ' ' :: B) then
              acc.reverse :: splitVsAux fuel (('v' :: 's' :: '.' :: ' ' :: B).drop 4) []
            else splitVsAux fuel ('v' :: 's' :: '.' :: ' ' :: B) (' ' :: acc) from rfl]
      rw [if_pos (by rfl)]
      rw [show ('v' :: 's' :: '.' :: ' ' :: B).drop 4 = B from rfl]
      have hlen' : B.length ≤ fuel := by
        simp at hlen
        omega
      rw [splitVsAux_no_pat fuel B [] hlen' hB]
      simp
  | cons c A' ih =>
    intro B acc fuel hlen hA hrisk hB
    have hA' : hasVsPat A' = false := by
      have := hA
      simp only [hasVsPat, Bool.or_eq_false_iff] at this
      exact this.2
    have hAhead : isVsPat (c :: A') = false := by
      have := hA
      simp only [hasVsPat, Bool.or_eq_false_iff] at this
      exact this.1
    have hrisk' : vsBoundaryRisk A' = false := vsBoundaryRisk_tail c A' hrisk
    cases fuel with
    | zero => omega
    | succ fuel =>
      have hnopat : isVsPat (c :: (A' ++ " vs. ".toList ++ B)) = false := by
        rcases A' with _ | ⟨a1, A2⟩
        · simp [isVsPat]
        rcases A2 with _ | ⟨a2, A3⟩
        · simp [isVsPat]
        rcases A3 with _ | ⟨a3, A4⟩
        · simp [isVsPat]
        rcases A4 with _ | ⟨a4, A5⟩
        · -- four characters before the separator's space: the straddle case
          have hr : vsBoundaryRisk (c :: a1 :: a2 :: a3 :: []) = false := hrisk
          rw [show vsBoundaryRisk (c :: a1 :: a2 :: a3 :: [])
              = (c == ' ' && (a1 == 'v' || a1 == 'V') && (a2 == 's' || a2 == 'S'))
              from rfl] at hr
          rw [show ([a1, a2, a3] : Str) ++ " vs. ".toList ++ B
              = a1 :: a2 :: a3 :: ' ' :: 'v' :: 's' :: '.' :: ' ' :: B from by simp]
          rw [show isVsPat (c :: a1 :: a2 :: a3 :: ' ' :: 'v' :: 's' :: '.' :: ' ' :: B)
              = (c == ' ' && (a1 == 'v' || a1 == 'V') && (a2 == 's' || a2 == 'S')
                  && (' ' == ' ')) from rfl]
          simpa using hr
        · -- at least four characters of the left side remain: pure left-side match
          have hih : isVsPat (c :: a1 :: a2 :: a3 :: a4 :: A5) = false := hAhead
          rw [show isVsPat (c :: a1 :: a2 :: a3 :: a4 :: A5)
              = (c == ' ' && (a1 == 'v' || a1 == 'V') && (a2 == 's' || a2 == 'S')
                  && (a4 == ' ')) from rfl] at hih
          rw [show (a1 :: a2 :: a3 :: a4 :: A5 : Str) ++ " vs. ".toList ++ B
              = a1 :: a2 :: a3 :: a4 :: (A5 ++ " vs. ".toList ++ B) from by simp]
          rw [show isVsPat (c :: a1 :: a2 :: a3 :: a4 :: (A5 ++ " vs. ".toList ++ B))
              = (c == ' ' && (a1 == 'v' || a1 == 'V') && (a2 == 's' || a2 == 'S')
                  && (a4 == ' ')) from rfl]
          exact hih
      have hlen' : A'.length + 5 + B.length ≤ fuel := by
        simp at hlen
        omega
      rw [show (c :: A') ++ " vs. ".toList ++ B = c :: (A' ++ " vs. ".toList ++ B)
          from by simp]
      rw [show splitVsAux (fuel + 1) (c :: (A' ++ " vs. ".toList ++ B)) acc
          = if isVsPat (c :: (A' ++ " vs. ".toList ++ B)) then
              acc.reverse :: splitVsAux fuel ((A' ++ " vs. ".toList ++ B).drop 4) []
            else splitVsAux fuel (A' ++ " vs. ".toList ++ B) (c :: acc) from rfl]
      rw [if_neg (by rw [hnopat]; simp)]
      rw [ih B (c :: acc) fuel hlen' hA' hrisk' hB]
      simp

/-- Both ends of a nonempty trimmed string are non-whitespace. -/
theorem dropWhile_head_false {p : Char → Bool} :
    ∀ (l : Str) (c : Char), (l.dropWhile p).head? = some c → p c = false := by
  intro l
  induction l with
  | nil => intro c h; simp at h
  | cons x xs ih =>
    intro c h
    rw [List.dropWhile_cons] at h
    by_cases hx : p x = true
    · rw [if_pos hx] at h
      exact ih c h
    · rw [if_neg hx] at h
      have hxc : x = c := by simpa using h
      subst hxc
      simpa using hx

/-- A nonempty trimmed string has non-whitespace first and last
characters. -/
theorem jsTrim_head_last (s : Str) (hne : jsTrim s ≠ []) :
    ∃ a b, (jsTrim s).head? = some a ∧ isWsChar a = false ∧
      (jsTrim s).getLast? = some b ∧ isWsChar b = false := by
  have hv : jsTrim s = ((s.dropWhile isWsChar).reverse.dropWhile isWsChar).reverse := rfl
  have hvne : (s.dropWhile isWsChar).reverse.dropWhile isWsChar ≠ [] := by
    intro h
    rw [hv, h] at hne
    simp at hne
  obtain ⟨b, hb⟩ : ∃ b, ((s.dropWhile isWsChar).reverse.dropWhile isWsChar).head? = some b := by
    cases h : (s.dropWhile isWsChar).reverse.dropWhile isWsChar with
    | nil => exact absurd h hvne
    | cons x t => exact ⟨x, rfl⟩
  have hwb : isWsChar b = false := dropWhile_head_false _ b hb
  have hune : s.dropWhile isWsChar ≠ [] := by
    intro h
    rw [h] at hvne
    simp at hvne
  obtain ⟨a, ha⟩ : ∃ a, (s.dropWhile isWsChar).head? = some a := by
    cases h : s.dropWhile isWsChar with
    | nil => exact absurd h hune
    | cons x t => exact ⟨x, rfl⟩
  have hwa : isWsChar a = false := dropWhile_head_false _ a ha
  refine ⟨a, b, ?_, hwa, ?_, hwb⟩
  · rw [hv, List.head?_reverse]
    have hu : (s.dropWhile isWsChar).reverse
        = (s.dropWhile isWsChar).reverse.takeWhile isWsChar ++
          (s.dropWhile isWsChar).reverse.dropWhile isWsChar :=
      (List.takeWhile_append_dropWhile ..).symm
    rw [show ((s.dropWhile isWsChar).reverse.dropWhile isWsChar).getLast?
        = ((s.dropWhile isWsChar).reverse).getLast? from ?_]
    · rw [List.getLast?_reverse]
      exact ha
    · conv_rhs => rw [hu]
      rw [List.getLast?_append]
      cases h : ((s.dropWhile isWsChar).reverse.dropWhile isWsChar).getLast? with
      | none =>
        exfalso
        rw [List.getLast?_eq_none_iff] at h
        exact hvne h
      | some x => rfl
  · rw [hv, List.getLast?_reverse]
    exact hb

/-- Trimming is idempotent. -/
theorem jsTrim_idem (s : Str) : jsTrim (jsTrim s) = jsTrim s := by
  by_cases hne : jsTrim s = []
  · rw [hne]
    rfl
  · obtain ⟨a, b, ha, hwa, hb, hwb⟩ := jsTrim_head_last s hne
    exact jsTrim_eq_self ha hwa hb hwb

/-- C5 (amended): encoding two inputs as `A vs. B` and splitting back
recovers the trimmed sides, provided neither trimmed side contains a
*case-insensitive* match of the split pattern (space, `v`, `s`, any
character, space — the regex treats `.` as a wildcard) and the left side
does not end in space-`v`-`s` plus one character (which would straddle a
match into the separator).  The claim's own hypotheses — nonempty, no
literal `" vs. "` — are not sufficient, see the counterexample. -/
theorem claim5_round_trip_amended (A B : Str)
    (hA1 : hasVsPat (jsTrim A) = false) (hA2 : vsBoundaryRisk (jsTrim A) = false)
    (hB1 : hasVsPat (jsTrim B) = false) :
    comparisonSides (encodeComparison A B) = (jsTrim A, jsTrim B) := by
  have hsplit : splitVs (encodeComparison A B) = [jsTrim A, jsTrim B] := by
    unfold splitVs encodeComparison
    rw [splitVsAux_sep (jsTrim A) (jsTrim B) []
      (jsTrim A ++ " vs. ".toList ++ jsTrim B).length (by simp; omega) hA1 hA2 hB1]
    simp
  simp only [comparisonSides, hsplit]
  simp [jsTrim_idem]

/-- Counterexample for C5 as stated: `A = "a vsx b"` and `B = "c"` are
nonempty and contain no `" vs. "` substring (even case-insensitively),
yet the case-insensitive wildcard split regex matches `" vsx "` first, so
splitting the composite recovers `("a", "b")`, not `(A, B)`. -/
theorem claim5_counterexample :
    ("a vsx b".toList ≠ [] ∧ "c".toList ≠ [] ∧
     strIncludes " vs. ".toList (toLowerStr "a vsx b".toList) = false ∧
     strIncludes " vs. ".toList (toLowerStr "c".toList) = false) ∧
    comparisonSides (encodeComparison "a vsx b".toList "c".toList)
      ≠ (jsTrim "a vsx b".toList, jsTrim "c".toList) :=
  ⟨by decide, by decide⟩

/-- Witness for C5: the benign pair `("Gravity", "Entropy")` round-trips
through the amended statement. -/
theorem claim5_witness :
    (hasVsPat (jsTrim "Gravity".toList) = false ∧
     vsBoundaryRisk (jsTrim "Gravity".toList) = false ∧
     hasVsPat (jsTrim "Entropy".toList) = false) ∧
    comparisonSides (encodeComparison "Gravity".toList "Entropy".toList)
      = (jsTrim "Gravity".toList, jsTrim "Entropy".toList) :=
  ⟨⟨by decide, by decide, by decide⟩,
   claim5_round_trip_amended "Gravity".toList "Entropy".toList
     (by decide) (by decide) (by decide)⟩

/-! ## C2: fail-open ambiguity check -/

/-- C2 (amended): with a *configured* API key, any failure of the
ambiguity check's request/parse/validation pipeline — transport failure,
non-JSON text, or a payload without a boolean `is_ambiguous` field — is
absorbed: the caller receives `is_ambiguous: false` with no meanings, and
the whole resolution cycle behaves exactly as if the service had answered
`{is_ambiguous: false}`, proceeding to the normal definition fetch. -/
theorem claim2_fail_open_amended (topic : Str) (temp : Temperature) (env : CycleEnv)
    (hkey : env.apiKey = true)
    (herr : (ambiguityAttempt env.ambiguityResp).isOk = false) :
    (checkForAmbiguity env.apiKey topic temp env.ambiguityResp).1
      = .ok ⟨false, none⟩ ∧
    runCycle topic temp env
      = runCycle topic temp
          { env with ambiguityResp := .ok "\x7b\"is_ambiguous\": false\x7d".toList } := by
  have hex : ∃ e, ambiguityAttempt env.ambiguityResp = .error e := by
    rcases h : ambiguityAttempt env.ambiguityResp with e | d
    · exact ⟨e, rfl⟩
    · rw [h] at herr
      simp [Except.isOk, Except.toBool] at herr
  obtain ⟨e, hatt⟩ := hex
  have hchk : checkForAmbiguity env.apiKey topic temp env.ambiguityResp
      = (.ok ⟨false, none⟩, [.ambiguityCall topic temp]) := by
    simp [checkForAmbiguity, hkey, hatt]
  have hchk2 : checkForAmbiguity env.apiKey topic temp
        (.ok "\x7b\"is_ambiguous\": false\x7d".toList)
      = (.ok ⟨false, none⟩, [.ambiguityCall topic temp]) := by
    have hrhsatt : ambiguityAttempt (.ok "\x7b\"is_ambiguous\": false\x7d".toList)
        = .ok ⟨false, none⟩ := rfl
    simp only [checkForAmbiguity, hkey, Bool.not_true, Bool.false_eq_true, if_false]
    rw [hrhsatt]
  refine ⟨by rw [hchk], ?_⟩
  by_cases hcomp : isComparisonTopic topic = true
  · simp only [runCycle, hcomp]
    rfl
  · have hc : isComparisonTopic topic = false := by simpa using hcomp
    simp only [runCycle, hc, Bool.false_eq_true, if_false, hchk, hchk2]
    rfl

/-- Counterexample for C2 as stated: with a *missing* access credential
the ambiguity check throws outside its `try`, the error propagates to the
caller, and the cycle ends in the error state without any service request
— the pipeline does not proceed to the definition fetch. -/
theorem claim2_counterexample :
    (checkForAmbiguity false "Entropy".toList 1
        (.ok "\x7b\"is_ambiguous\": true\x7d".toList)).1
      = .error "API_KEY is not configured.".toList ∧
    (runCycle "Entropy".toList 1
        (CycleEnv.mk false (.ok "\x7b\"is_ambiguous\": true\x7d".toList)
          (.ok "\x7b\"summary\": \"s\", \"key_concepts\": []\x7d".toList)
          (.ok "x".toList) (.ok "\x7b\"art\": \"<>\"\x7d".toList))).1.error
      = some "API_KEY is not configured.".toList ∧
    (runCycle "Entropy".toList 1
        (CycleEnv.mk false (.ok "\x7b\"is_ambiguous\": true\x7d".toList)
          (.ok "\x7b\"summary\": \"s\", \"key_concepts\": []\x7d".toList)
          (.ok "x".toList) (.ok "\x7b\"art\": \"<>\"\x7d".toList))).2
      = [] :=
  ⟨rfl, rfl, rfl⟩

/-- Witness for C2: with a key configured, a non-JSON ambiguity response
("oops") degrades to `is_ambiguous: false` and the cycle equals the
benign one. -/
theorem claim2_witness :
    ((CycleEnv.mk true (.ok "oops".toList)
        (.ok "\x7b\"summary\": \"s\", \"key_concepts\": []\x7d".toList)
        (.ok "x".toList) (.ok "\x7b\"art\": \"<>\"\x7d".toList)).apiKey = true ∧
      (ambiguityAttempt (CycleEnv.mk true (.ok "oops".toList)
        (.ok "\x7b\"summary\": \"s\", \"key_concepts\": []\x7d".toList)
        (.ok "x".toList) (.ok "\x7b\"art\": \"<>\"\x7d".toList)).ambiguityResp).isOk = false) ∧
    ((checkForAmbiguity (CycleEnv.mk true (.ok "oops".toList)
        (.ok "\x7b\"summary\": \"s\", \"key_concepts\": []\x7d".toList)
        (.ok "x".toList) (.ok "\x7b\"art\": \"<>\"\x7d".toList)).apiKey "Entropy".toList 1
        (CycleEnv.mk true (.ok "oops".toList)
        (.ok "\x7b\"summary\": \"s\", \"key_concepts\": []\x7d".toList)
        (.ok "x".toList) (.ok "\x7b\"art\": \"<>\"\x7d".toList)).ambiguityResp).1
      = .ok ⟨false, none⟩ ∧
     runCycle "Entropy".toList 1 (CycleEnv.mk true (.ok "oops".toList)
        (.ok "\x7b\"summary\": \"s\", \"key_concepts\": []\x7d".toList)
        (.ok "x".toList) (.ok "\x7b\"art\": \"<>\"\x7d".toList))
      = runCycle "Entropy".toList 1
          { CycleEnv.mk true (.ok "oops".toList)
              (.ok "\x7b\"summary\": \"s\", \"key_concepts\": []\x7d".toList)
              (.ok "x".toList) (.ok "\x7b\"art\": \"<>\"\x7d".toList) with
            ambiguityResp := .ok "\x7b\"is_ambiguous\": false\x7d".toList }) :=
  ⟨⟨rfl, rfl⟩,
   claim2_fail_open_amended "Entropy".toList 1 _ rfl rfl⟩

/-! ## C4: response hygiene and code fences -/

/-- A fenced payload ends with a backtick. -/
theorem fenceWrap_getLast (inner : Str) : (fenceWrap inner).getLast? = some '`' := by
  unfold fenceWrap
  rw [List.getLast?_append, List.getLast?_append]
  rfl

/-- Trimming does not touch a fenced payload. -/
theorem jsTrim_fenceWrap (inner : Str) : jsTrim (fenceWrap inner) = fenceWrap inner :=
  jsTrim_eq_self rfl rfl (fenceWrap_getLast inner) rfl

/-- The fence regex of `generateAsciiArt` strips a well-formed fencing of
a brace-delimited payload back to the payload. -/
theorem fenceStrip_fenceWrap (inner : Str) (hh : inner.head? = some '\x7b')
    (hl : inner.getLast? = some '\x7d') : fenceStrip (fenceWrap inner) = inner := by
  have hne : inner ≠ [] := by
    intro h
    rw [h] at hh
    simp at hh
  have htrimCore : jsTrim ('\n' :: (inner ++ ['\n'])) = inner := by
    unfold jsTrim
    rw [List.dropWhile_cons, if_pos (show isWsChar '\n' = true from rfl)]
    have h1 : (inner ++ ['\n']).dropWhile isWsChar = inner ++ ['\n'] := by
      apply dropWhile_eq_self_of_head (a := '\x7b')
      · rw [List.head?_append, hh]
        rfl
      · rfl
    rw [h1]
    have h2 : (inner ++ ['\n']).reverse = '\n' :: inner.reverse := by simp
    rw [h2, List.dropWhile_cons, if_pos (show isWsChar '\n' = true from rfl)]
    have h3 : inner.reverse.dropWhile isWsChar = inner.reverse := by
      apply dropWhile_eq_self_of_head (a := '\x7d')
      · rw [List.head?_reverse]
        exact hl
      · rfl
    rw [h3, List.reverse_reverse]
  have hshape : fenceWrap inner
      = '`' :: '`' :: '`' :: 'j' :: 's' :: 'o' :: 'n' :: '\n' :: (inner ++ ['\n', '`', '`', '`']) := by
    simp [fenceWrap]
  have hsuf : "```".toList.isSuffixOf ('\n' :: (inner ++ ['\n', '`', '`', '`'])) = true := by
    have hrev : ('\n' :: (inner ++ ['\n', '`', '`', '`'])).reverse
        = '`' :: '`' :: '`' :: '\n' :: (inner.reverse ++ ['\n']) := by simp
    show "```".toList.reverse.isPrefixOf ('\n' :: (inner ++ ['\n', '`', '`', '`'])).reverse = true
    rw [hrev]
    rfl
  have hfront : ('\n' :: (inner ++ ['\n'])) ++ ['`', '`', '`']
      = '\n' :: (inner ++ ['\n', '`', '`', '`']) := by simp
  have htake : ('\n' :: (inner ++ ['\n', '`', '`', '`'])).take
        (('\n' :: (inner ++ ['\n', '`', '`', '`'])).length - 3)
      = '\n' :: (inner ++ ['\n']) := by
    rw [← hfront]
    rw [List.take_left' (by simp)]
  rw [hshape]
  show fenceStrip _ = inner
  unfold fenceStrip
  rw [if_pos (show ("```".toList.isPrefixOf
      ('`' :: '`' :: '`' :: 'j' :: 's' :: 'o' :: 'n' :: '\n' :: (inner ++ ['\n', '`', '`', '`'])))
      = true from rfl)]
  show (if "```".toList.isSuffixOf ('\n' :: (inner ++ ['\n', '`', '`', '`'])) = true then _ else _) = inner
  rw [if_pos hsuf]
  show (let core := jsTrim (('\n' :: (inner ++ ['\n', '`', '`', '`'])).take
      (('\n' :: (inner ++ ['\n', '`', '`', '`'])).length - 3));
    if core = [] then _ else core) = inner
  rw [htake, htrimCore]
  simp [hne]

/-- C4 (amended): only `generateAsciiArt` strips markdown code fences.
For it, a fenced brace-delimited payload behaves exactly as the unfenced
payload.  For `generateDefinition`, `generateComparison` and
`checkForAmbiguity` the fences are *not* stripped: the fenced response
fails the begins-with-brace check, so the definition and comparison
operations fail with the "not a valid JSON object" error and the
ambiguity check degrades to "not ambiguous". -/
theorem claim4_fence_hygiene_amended (inner topic a b : Str) (temp : Temperature)
    (hh : inner.head? = some '\x7b') (hl : inner.getLast? = some '\x7d')
    (hta : jsTrim inner = inner) :
    generateAsciiArt true topic (.ok (fenceWrap inner))
      = generateAsciiArt true topic (.ok inner) ∧
    (generateDefinition true topic temp (.ok (fenceWrap inner))).1
      = .error (defErrWrap topic "Response is not a valid JSON object".toList) ∧
    (generateComparison true a b temp (.ok (fenceWrap inner))).1
      = .error (compErrWrap a b "Response is not a valid JSON object".toList) ∧
    (checkForAmbiguity true topic temp (.ok (fenceWrap inner))).1
      = .ok ⟨false, none⟩ := by
  have hnotpre : ("```".toList.isPrefixOf inner) = false := by
    cases inner with
    | nil => rfl
    | cons c t =>
      have hc : c = '\x7b' := by simpa using hh
      subst hc
      rfl
  have hstripped : fenceStrip (jsTrim inner) = inner := by
    rw [hta]
    unfold fenceStrip
    rw [if_neg (by rw [hnotpre]; simp)]
  have e1 : fenceStrip (jsTrim (fenceWrap inner)) = inner := by
    rw [jsTrim_fenceWrap]
    exact fenceStrip_fenceWrap inner hh hl
  have hart : artAttempt (.ok (fenceWrap inner)) = artAttempt (.ok inner) := by
    simp only [artAttempt, e1, hstripped]
  have hdef : definitionAttempt (.ok (fenceWrap inner))
      = .error "Response is not a valid JSON object".toList := by
    simp only [definitionAttempt, jsTrim_fenceWrap]
    rw [if_pos]
    cases inner <;> rfl
  have hcmp : comparisonAttempt (.ok (fenceWrap inner))
      = .error "Response is not a valid JSON object".toList := by
    simp only [comparisonAttempt, jsTrim_fenceWrap]
    rw [if_pos]
    cases inner <;> rfl
  have hamb : ambiguityAttempt (.ok (fenceWrap inner))
      = .error "Response is not a valid JSON object".toList := by
    simp only [ambiguityAttempt, jsTrim_fenceWrap]
    rw [if_pos]
    cases inner <;> rfl
  refine ⟨?_, ?_, ?_, ?_⟩
  · simp only [generateAsciiArt, hart]
  · simp [generateDefinition, hdef]
  · simp [generateComparison, hcmp]
  · simp [checkForAmbiguity, hamb]

/-- Counterexample for C4 as stated: a valid required-shape definition
payload surrounded by code fences makes `generateDefinition` fail even
though the unfenced payload succeeds — only `generateAsciiArt` strips the
fences. -/
theorem claim4_counterexample :
    (generateDefinition true "Entropy".toList 1
        (.ok (fenceWrap "\x7b\"summary\": \"s\", \"key_concepts\": []\x7d".toList))).1.isOk
      = false ∧
    (generateDefinition true "Entropy".toList 1
        (.ok "\x7b\"summary\": \"s\", \"key_concepts\": []\x7d".toList)).1.isOk = true ∧
    (generateAsciiArt true "Entropy".toList
        (.ok (fenceWrap "\x7b\"art\": \"<>\"\x7d".toList))).1.isOk = true :=
  ⟨rfl, rfl, rfl⟩

/-- Witness for C4: the amended fence behaviour at a concrete fenced art
payload. -/
theorem claim4_witness :
    (("\x7b\"art\": \"<>\"\x7d".toList.head? = some '\x7b') ∧
     ("\x7b\"art\": \"<>\"\x7d".toList.getLast? = some '\x7d') ∧
     jsTrim "\x7b\"art\": \"<>\"\x7d".toList = "\x7b\"art\": \"<>\"\x7d".toList) ∧
    (generateAsciiArt true "Entropy".toList
        (.ok (fenceWrap "\x7b\"art\": \"<>\"\x7d".toList))
      = generateAsciiArt true "Entropy".toList (.ok "\x7b\"art\": \"<>\"\x7d".toList) ∧
     (generateDefinition true "Entropy".toList 1
        (.ok (fenceWrap "\x7b\"art\": \"<>\"\x7d".toList))).1
      = .error (defErrWrap "Entropy".toList "Response is not a valid JSON object".toList) ∧
     (generateComparison true "Gravity".toList "Entropy".toList 1
        (.ok (fenceWrap "\x7b\"art\": \"<>\"\x7d".toList))).1
      = .error (compErrWrap "Gravity".toList "Entropy".toList
          "Response is not a valid JSON object".toList) ∧
     (checkForAmbiguity true "Entropy".toList 1
        (.ok (fenceWrap "\x7b\"art\": \"<>\"\x7d".toList))).1
      = .ok ⟨false, none⟩) :=
  ⟨⟨rfl, by decide, by decide⟩,
   claim4_fence_hygiene_amended "\x7b\"art\": \"<>\"\x7d".toList "Entropy".toList
     "Gravity".toList "Entropy".toList 1 rfl (by decide) (by decide)⟩

/-! ## C7: art fallback -/

/-- Splitting at the first newline. -/
theorem splitLines_append_nl : ∀ (xs ys : Str), '\n' ∉ xs →
    splitLines (xs ++ '\n' :: ys) = xs :: splitLines ys := by
  intro xs
  induction xs with
  | nil => intro ys _; simp [splitLines]
  | cons c cs ih =>
    intro ys hx
    have hc : ¬ c = '\n' := by
      intro h
      exact hx (by simp [h])
    have hcs : '\n' ∉ cs := fun h => hx (List.mem_cons_of_mem _ h)
    simp only [List.cons_append, splitLines, if_neg hc]
    rw [show cs.append ('\n' :: ys) = cs ++ '\n' :: ys from rfl, ih ys hcs]

/-- A newline-free string is a single line. -/
theorem splitLines_no_nl : ∀ xs : Str, '\n' ∉ xs → splitLines xs = [xs] := by
  intro xs
  induction xs with
  | nil => intro _; rfl
  | cons c cs ih =>
    intro hx
    have hc : ¬ c = '\n' := by
      intro h
      exact hx (by simp [h])
    have hcs : '\n' ∉ cs := fun h => hx (List.mem_cons_of_mem _ h)
    simp only [splitLines, if_neg hc, ih hcs]

/-- The truncated display text of the fallback box. -/
def fallbackDisplayable (topic : Str) : Str :=
  if topic.length > 20 then topic.take 17 ++ "...".toList else topic

/-- The display text contains no newline if the topic does not. -/
theorem fallbackDisplayable_no_nl (topic : Str) (hn : '\n' ∉ topic) :
    '\n' ∉ fallbackDisplayable topic := by
  unfold fallbackDisplayable
  split
  · intro hmem
    rcases List.mem_append.mp hmem with h | h
    · exact hn (List.mem_of_mem_take h)
    · simp at h
  · exact hn

/-- The three lines of the fallback box. -/
theorem createFallbackArt_splitLines (topic : Str) (hn : '\n' ∉ topic) :
    splitLines (createFallbackArt topic).art
      = ['┌' :: (List.replicate (fallbackDisplayable topic).length.succ.succ '─' ++ ['┐']),
         '│' :: ' ' :: (fallbackDisplayable topic ++ [' ', '│']),
         '└' :: (List.replicate (fallbackDisplayable topic).length.succ.succ '─' ++ ['┘'])] := by
  have hd := fallbackDisplayable_no_nl topic hn
  have htop : '\n' ∉ '┌' :: (List.replicate (fallbackDisplayable topic).length.succ.succ '─' ++ ['┐']) := by
    simp [List.mem_replicate]
  have hmid : '\n' ∉ '│' :: ' ' :: (fallbackDisplayable topic ++ [' ', '│']) := by
    intro hmem
    simp only [List.mem_cons, List.mem_append] at hmem
    rcases hmem with h | h | h | h
    · simp at h
    · simp at h
    · exact hd h
    · simp at h
  have hbot : '\n' ∉ '└' :: (List.replicate (fallbackDisplayable topic).length.succ.succ '─' ++ ['┘']) := by
    simp [List.mem_replicate]
  have hart : (createFallbackArt topic).art
      = ('┌' :: (List.replicate (fallbackDisplayable topic).length.succ.succ '─' ++ ['┐'])) ++
        '\n' :: (('│' :: ' ' :: (fallbackDisplayable topic ++ [' ', '│'])) ++
        '\n' :: ('└' :: (List.replicate (fallbackDisplayable topic).length.succ.succ '─' ++ ['┘']))) := by
    simp only [createFallbackArt, fallbackDisplayable]
    simp [List.length_append]
  rw [hart, splitLines_append_nl _ _ htop, splitLines_append_nl _ _ hmid,
    splitLines_no_nl _ hbot]

/-- C7 (amended): when the art fetch of the active cycle fails, the
displayed art becomes exactly the deterministic fallback box for the
cycle's topic, the error and content fields are untouched (the failure
never surfaces as a pipeline error), and — for topics without an embedded
newline character — the box has exactly 3 lines whose middle line holds
the topic text truncated to its first 17 characters plus an ellipsis when
the topic is longer than 20 characters, the full topic otherwise.  (The
newline proviso is forced: a topic containing a newline produces a
four-line box, see the counterexample.) -/
theorem claim7_art_fallback_amended (s : MachState) (tok : Nat) (topic e : Str)
    (hact : tok = s.activeCycle) (hn : '\n' ∉ topic) :
    (machStep s (.artArrived tok topic (.error e))).asciiArt
      = some (createFallbackArt topic) ∧
    (machStep s (.artArrived tok topic (.error e))).error = s.error ∧
    (machStep s (.artArrived tok topic (.error e))).content = s.content ∧
    (splitLines (createFallbackArt topic).art).length = 3 ∧
    (splitLines (createFallbackArt topic).art).getD 1 []
      = '│' :: ' ' :: ((if topic.length > 20 then topic.take 17 ++ "...".toList else topic)
          ++ [' ', '│']) := by
  have hsplit := createFallbackArt_splitLines topic hn
  refine ⟨?_, ?_, ?_, ?_, ?_⟩
  · simp [machStep, hact]
  · simp [machStep, hact]
  · simp [machStep, hact]
  · rw [hsplit]; rfl
  · rw [hsplit]; rfl

/-- Counterexample for C7 as stated: for a topic containing a newline the
displayed fallback box has four lines, not three. -/
theorem claim7_counterexample :
    (machStep (MachState.mk 1 none none none none true)
        (.artArrived 1 ('a' :: '\n' :: 'b' :: []) (.error "x".toList))).asciiArt
      = some (createFallbackArt ('a' :: '\n' :: 'b' :: [])) ∧
    (splitLines (createFallbackArt ('a' :: '\n' :: 'b' :: [])).art).length = 4 :=
  ⟨rfl, by decide⟩

/-- Witness for C7: the failed art fetch of the active cycle for topic
`"Chimera"` displays its fallback box and leaves the error state
untouched. -/
theorem claim7_witness :
    ((1 : Nat) = (MachState.mk 1 none none none none true).activeCycle ∧
      '\n' ∉ "Chimera".toList) ∧
    ((machStep (MachState.mk 1 none none none none true)
        (.artArrived 1 "Chimera".toList (.error "net down".toList))).asciiArt
      = some (createFallbackArt "Chimera".toList) ∧
     (machStep (MachState.mk 1 none none none none true)
        (.artArrived 1 "Chimera".toList (.error "net down".toList))).error
      = (MachState.mk 1 none none none none true).error ∧
     (machStep (MachState.mk 1 none none none none true)
        (.artArrived 1 "Chimera".toList (.error "net down".toList))).content
      = (MachState.mk 1 none none none none true).content ∧
     (splitLines (createFallbackArt "Chimera".toList).art).length = 3 ∧
     (splitLines (createFallbackArt "Chimera".toList).art).getD 1 []
      = '│' :: ' ' :: ((if "Chimera".toList.length > 20 then
            "Chimera".toList.take 17 ++ "...".toList else "Chimera".toList)
          ++ [' ', '│'])) :=
  ⟨⟨rfl, by decide⟩,
   claim7_art_fallback_amended (MachState.mk 1 none none none none true) 1
     "Chimera".toList "net down".toList rfl (by decide)⟩

/-! ## C6: random pick -/

set_option maxRecDepth 100000 in
set_option maxHeartbeats 1000000 in
/-- The curated vocabulary has pairwise case-insensitively distinct
entries. -/
theorem uniqueWords_lower_nodup : (UNIQUE_WORDS.map lowerStr).Nodup := by decide

set_option maxRecDepth 100000 in
/-- The deduplicated vocabulary has 134 entries. -/
theorem uniqueWords_length : UNIQUE_WORDS.length = 134 := by decide

/-- `handleRandom` in closed form. -/
theorem handleRandom_eq (current : String) (i : Nat) :
    handleRandom current i
      = if lowerStr (UNIQUE_WORDS.getD i "") = lowerStr current then
          [UNIQUE_WORDS.getD ((i + 1) % UNIQUE_WORDS.length) ""]
        else [UNIQUE_WORDS.getD i ""] := by
  simp only [handleRandom]
  split <;> rfl

set_option maxRecDepth 100000 in
/-- C6: the random pick never finally chooses a word case-insensitively
equal to the current topic (one substitution step to the next vocabulary
word suffices), and the resulting history is exactly the single-entry
list holding the chosen word. -/
theorem claim6_random_pick (current : String) (i : Nat)
    (hi : i < UNIQUE_WORDS.length) :
    ∃ w, handleRandom current i = [w] ∧ lowerStr w ≠ lowerStr current := by
  have hn : 1 < UNIQUE_WORDS.length := by rw [uniqueWords_length]; omega
  have hgetD : UNIQUE_WORDS.getD i "" = UNIQUE_WORDS[i] := by
    rw [List.getD_eq_getElem?_getD, List.getElem?_eq_getElem hi]
    rfl
  by_cases heq : lowerStr (UNIQUE_WORDS.getD i "") = lowerStr current
  · have hj : (i + 1) % UNIQUE_WORDS.length < UNIQUE_WORDS.length :=
      Nat.mod_lt _ (by omega)
    have hgetDj : UNIQUE_WORDS.getD ((i + 1) % UNIQUE_WORDS.length) ""
        = UNIQUE_WORDS[(i + 1) % UNIQUE_WORDS.length] := by
      rw [List.getD_eq_getElem?_getD, List.getElem?_eq_getElem hj]
      rfl
    refine ⟨UNIQUE_WORDS.getD ((i + 1) % UNIQUE_WORDS.length) "",
      by rw [handleRandom_eq, if_pos heq], ?_⟩
    intro hcon
    have hi2 : i < (UNIQUE_WORDS.map lowerStr).length := by simpa using hi
    have hj2 : (i + 1) % UNIQUE_WORDS.length < (UNIQUE_WORDS.map lowerStr).length := by
      simpa using hj
    have h1 : (UNIQUE_WORDS.map lowerStr)[(i + 1) % UNIQUE_WORDS.length]
        = (UNIQUE_WORDS.map lowerStr)[i] := by
      rw [List.getElem_map, List.getElem_map, ← hgetDj, ← hgetD, hcon, heq]
    have h2 : (i + 1) % UNIQUE_WORDS.length = i :=
      (uniqueWords_lower_nodup.getElem_inj_iff).mp h1
    rcases Nat.lt_or_ge (i + 1) UNIQUE_WORDS.length with hlt | hge
    · rw [Nat.mod_eq_of_lt hlt] at h2
      omega
    · have hieq : i + 1 = UNIQUE_WORDS.length := by omega
      rw [hieq, Nat.mod_self] at h2
      omega
  · exact ⟨UNIQUE_WORDS.getD i "", by rw [handleRandom_eq, if_neg heq], heq⟩

set_option maxRecDepth 100000 in
/-- Witness for C6: drawing index 0 (`"Balance"`) while the current topic
is `"balance"` must fall through to the next word. -/
theorem claim6_witness :
    0 < UNIQUE_WORDS.length ∧
    ∃ w, handleRandom "balance" 0 = [w] ∧ lowerStr w ≠ lowerStr "balance" :=
  ⟨by decide, claim6_random_pick "balance" 0 (by decide)⟩

/-- Witness for C10: adds at distinct milliseconds get distinct ids. -/
theorem claim10_witness :
    ([(5, (⟨.concept, "c0", 0, 0⟩ : PinSpec)), (7, ⟨.ascii, "c1", 1, 1⟩)].map Prod.fst).Nodup ∧
    (((pinboardAdds [(5, ⟨.concept, "c0", 0, 0⟩), (7, ⟨.ascii, "c1", 1, 1⟩)]).map
        PinnedItem.id).Nodup ∧
     ∀ idq : String,
       ((pinboardAdds [(5, ⟨.concept, "c0", 0, 0⟩), (7, ⟨.ascii, "c1", 1, 1⟩)]).filter
           (fun it => it.id == idq)).length ≤ 1) :=
  ⟨by decide, claim10_pin_ids_amended _ (by decide)⟩

end InfiniteWiki
